import Mathlib

/-!
Verification development for the twin-stick shooter core (src/game.rs,
src/player.rs, src/joystick.rs).

Modelling conventions:
* f32 scalars are modelled as exact rationals (ℚ) in the game simulation.
  The f32 library functions `sqrt`, `atan2`, `sin`, `cos` are external
  calls; they are abstracted as fields of an `Ext` record (a function
  ℚ → ℚ each), so every game definition is a faithful, executable
  translation of the Rust source, parametric in those functions.
  Concrete evaluations only ever apply `sqrtF` at argument 0, where the
  real f32 `sqrt` returns exactly 0.
* `screen_width()` / `screen_height()` are the `width`/`height` fields
  of `Ext`.
* `GameState::handle_input` consumes the global touch/mouse state and the
  two `Joystick` values; in the embedding the per-frame joystick results
  (`left_joystick.get_input()`, `right_joystick.get_input()`,
  `right_joystick.active`) and the `rand::gen_range` draws of the frame
  are the fields of a `FrameInput` record.
* `Vec::retain_mut` becomes `List.filterMap`, `Vec::drain(0..k)` becomes
  `List.drop k`, `Vec::remove(i)` becomes `List.eraseIdx i` (note:
  `List.eraseIdx` is a no-op out of bounds where Rust's `remove` panics;
  where that matters it is called out explicitly).
* The joystick (src/joystick.rs) is modelled over ℝ with `Real.sqrt`,
  because its clamping invariant (`|current - center| ≤ radius`) is an
  exact statement about Euclidean length.
-/

namespace Rocket

/-- 2-D vector over ℚ (joystick.rs `Vec2`, also macroquad's `Vec2` as used
by game.rs). -/
structure V2 where
  x : ℚ
  y : ℚ
deriving DecidableEq, Repr

def V2.add (a b : V2) : V2 := ⟨a.x + b.x, a.y + b.y⟩

def V2.sub (a b : V2) : V2 := ⟨a.x - b.x, a.y - b.y⟩

instance : Add V2 := ⟨V2.add⟩

instance : Sub V2 := ⟨V2.sub⟩

/-- `Vec2 * scalar` (joystick.rs `impl Mul<f32> for Vec2`). -/
def V2.smul (v : V2) (s : ℚ) : V2 := ⟨v.x * s, v.y * s⟩

/-- `Vec2 / scalar` (joystick.rs `impl Div<f32> for Vec2`). -/
def V2.sdiv (v : V2) (s : ℚ) : V2 := ⟨v.x / s, v.y / s⟩

/-- Argument of `length()`: the sum of squares `x*x + y*y`. -/
def V2.len2 (v : V2) : ℚ := v.x * v.x + v.y * v.y

/-- External environment of the simulation: the f32 math library
functions used by game.rs/player.rs and the screen dimensions. -/
structure Ext where
  sqrtF : ℚ → ℚ
  atan2F : ℚ → ℚ → ℚ
  cosF : ℚ → ℚ
  sinF : ℚ → ℚ
  width : ℚ
  height : ℚ

/-- `Vec2::length()`: `sqrt(x*x + y*y)` with the abstracted `sqrt`. -/
def vlen (ext : Ext) (v : V2) : ℚ := ext.sqrtF v.len2

/-- player.rs `Player`. -/
structure Player where
  position : V2
  velocity : V2
  rotation : ℚ
deriving DecidableEq, Repr

/-- player.rs `Player::update`, translated statement by statement:
thrust, damping, integration, aim-facing. -/
def Player.update (atan2F : ℚ → ℚ → ℚ) (movement aim : V2) (dt : ℚ)
    (p : Player) : Player :=
  -- self.velocity += movement * 400.0 * dt;
  let vel1 := p.velocity + (movement.smul 400).smul dt
  -- self.velocity = self.velocity * 0.98;
  let vel2 := vel1.smul 0.98
  -- self.position += self.velocity * dt;
  let pos1 := p.position + vel2.smul dt
  -- if aim.x != 0.0 || aim.y != 0.0 { self.rotation = aim.y.atan2(aim.x); }
  let rot1 := if aim.x ≠ 0 ∨ aim.y ≠ 0 then atan2F aim.y aim.x else p.rotation
  ⟨pos1, vel2, rot1⟩

/-- game.rs `Particle`. -/
structure Particle where
  pos : V2
  velocity : V2
  size : ℚ
  alpha : ℚ
deriving DecidableEq, Repr

/-- game.rs `TrailSegment`. -/
structure TrailSegment where
  pos : V2
  life : ℚ
  size : ℚ
deriving DecidableEq, Repr

/-- game.rs `Obstacle`. -/
structure Obstacle where
  pos : V2
  size : ℚ
  glow_phase : ℚ
deriving DecidableEq, Repr

/-- game.rs `Bullet`. -/
structure Bullet where
  pos : V2
  velocity : V2
  life : ℚ
deriving DecidableEq, Repr

/-- game.rs `Enemy`. -/
structure Enemy where
  pos : V2
  velocity : V2
  rotation : ℚ
  health : ℤ
  size : ℚ
deriving DecidableEq, Repr

/-- game.rs `Explosion`. -/
structure Explosion where
  pos : V2
  life : ℚ
  size : ℚ
deriving DecidableEq, Repr

/-- game.rs `GameState` (the joysticks and touch ids live in the input
layer, see the module comment; everything else is carried verbatim). -/
structure GameState where
  player : Player
  particles : List Particle
  trail : List TrailSegment
  obstacles : List Obstacle
  bullets : List Bullet
  enemies : List Enemy
  explosions : List Explosion
  shoot_cooldown : ℚ
  enemy_spawn_timer : ℚ
  health : ℤ
  score : ℤ
  time : ℚ
  intro_alpha : ℚ
  game_started : Bool
  safe_time : ℚ
  game_over : Bool
deriving DecidableEq, Repr

/-- Per-frame external input: the two joystick readings, whether the aim
joystick is active, and the frame's random draws (spawn side, spawn edge
coordinate, new spawn-timer value in [1.0, 2.5)). -/
structure FrameInput where
  movement : V2
  aim : V2
  rightActive : Bool
  spawnSide : ℕ
  spawnCoord : ℚ
  spawnTimerReset : ℚ
deriving DecidableEq, Repr

/-- game.rs lines 150-157: intro fade. Returns the new
`(intro_alpha, game_started)` pair. -/
def introStep (dt a : ℚ) (started : Bool) : ℚ × Bool :=
  if a > 0 then
    let a1 := a - dt * 0.5
    if a1 < 0 then (0, true) else (a1, started)
  else (a, started)

/-- game.rs `GameState::shoot`: bullet from the ship's nose, speed 600,
life 2.0. -/
def shootBullet (ext : Ext) (p : Player) : Bullet :=
  let start : V2 := ⟨p.position.x + ext.cosF p.rotation * 45,
                     p.position.y + ext.sinF p.rotation * 45⟩
  let vel : V2 := ⟨ext.cosF p.rotation * 600, ext.sinF p.rotation * 600⟩
  ⟨start, vel, 2⟩

/-- Trail aging (game.rs lines 191-195, the `retain_mut` closure):
`life -= dt*2`, `size -= dt*40`, keep while `life > 0`. -/
def trailAge (dt : ℚ) (seg : TrailSegment) : Option TrailSegment :=
  let seg1 : TrailSegment := ⟨seg.pos, seg.life - dt * 2, seg.size - dt * 40⟩
  if seg1.life > 0 then some seg1 else none

/-- Trail cap (game.rs lines 198-200): keep only the last 20 segments. -/
def trailCap (t : List TrailSegment) : List TrailSegment :=
  if t.length > 20 then t.drop (t.length - 20) else t

/-- Screen wrapping of a position with the two sequential `if`s per axis
(game.rs lines 203-208 for the player, 317-320 for particles). -/
def wrapPos (ext : Ext) (p : V2) : V2 :=
  let x1 := if p.x < 0 then ext.width else p.x
  let x2 := if x1 > ext.width then 0 else x1
  let y1 := if p.y < 0 then ext.height else p.y
  let y2 := if y1 > ext.height then 0 else y1
  ⟨x2, y2⟩

/-- Bullet integration and culling (game.rs lines 211-219, the
`retain_mut` closure): advance by `velocity*dt`, `life -= dt`, keep while
`life > 0` and the position is strictly inside `(0,width)×(0,height)`. -/
def bulletStep (ext : Ext) (dt : ℚ) (b : Bullet) : Option Bullet :=
  let pos1 := b.pos + b.velocity.smul dt
  let life1 := b.life - dt
  if life1 > 0 ∧ pos1.x > 0 ∧ pos1.x < ext.width
      ∧ pos1.y > 0 ∧ pos1.y < ext.height then
    some ⟨pos1, b.velocity, life1⟩
  else none

/-- game.rs `GameState::spawn_enemy`, with the random side and edge
coordinate supplied by the frame input. -/
def spawnEnemy (ext : Ext) (side : ℕ) (coord : ℚ) : Enemy :=
  let pos : V2 :=
    if side = 0 then ⟨coord, -50⟩
    else if side = 1 then ⟨coord, ext.height + 50⟩
    else if side = 2 then ⟨-50, coord⟩
    else ⟨ext.width + 50, coord⟩
  ⟨pos, ⟨0, 0⟩, 0, 2, 25⟩

/-- Enemy wrapping with the ±50 margin (game.rs lines 246-249),
sequential `if`s as in the source. -/
def wrapEnemyPos (ext : Ext) (p : V2) : V2 :=
  let x1 := if p.x < -50 then ext.width + 50 else p.x
  let x2 := if x1 > ext.width + 50 then -50 else x1
  let y1 := if p.y < -50 then ext.height + 50 else p.y
  let y2 := if y1 > ext.height + 50 then -50 else y1
  ⟨x2, y2⟩

/-- Enemy pursuit (game.rs lines 231-250): recompute velocity and
rotation toward the player only when `distance > 0`, then integrate and
wrap. -/
def enemyChase (ext : Ext) (ppos : V2) (dt : ℚ) (e : Enemy) : Enemy :=
  let toPlayer := ppos - e.pos
  let distance := ext.sqrtF toPlayer.len2
  let vr : V2 × ℚ :=
    if distance > 0 then
      let direction := toPlayer.sdiv distance
      (direction.smul 150, ext.atan2F direction.y direction.x)
    else (e.velocity, e.rotation)
  let pos1 := e.pos + vr.1.smul dt
  ⟨wrapEnemyPos ext pos1, vr.1, vr.2, e.health, e.size⟩

/-- Result of scanning one enemy against the bullet pool. -/
structure ScanOut where
  enemy : Enemy
  bullets : List Bullet
  deaths : List ℕ
  scoreAdd : ℤ
  explosions : List Explosion
deriving DecidableEq, Repr

/-- Inner loop of the bullet-enemy collision scan (game.rs lines
255-271): every bullet within `enemy.size + 10` of enemy `i` decrements
its health and has its own life zeroed; each hit that leaves
`health <= 0` pushes `i` onto the removal list, adds 100 score and one
explosion at the enemy's position. -/
def enemyBulletInner (ext : Ext) (i : ℕ) (e : Enemy) :
    List Bullet → ScanOut
  | [] => ⟨e, [], [], 0, []⟩
  | b :: bs =>
    if ext.sqrtF (b.pos - e.pos).len2 < e.size + 10 then
      let e1 : Enemy := ⟨e.pos, e.velocity, e.rotation, e.health - 1, e.size⟩
      let b1 : Bullet := ⟨b.pos, b.velocity, 0⟩
      let dead := e1.health ≤ 0
      let rest := enemyBulletInner ext i e1 bs
      ⟨rest.enemy, b1 :: rest.bullets,
        (if dead then [i] else []) ++ rest.deaths,
        (if dead then 100 else 0) + rest.scoreAdd,
        (if dead then [(⟨e1.pos, 0.5, e1.size * 2⟩ : Explosion)] else [])
          ++ rest.explosions⟩
    else
      let rest := enemyBulletInner ext i e bs
      ⟨rest.enemy, b :: rest.bullets, rest.deaths, rest.scoreAdd,
        rest.explosions⟩

/-- Result of the full pairwise bullet-enemy scan. -/
structure ScanAll where
  enemies : List Enemy
  bullets : List Bullet
  deaths : List ℕ
  scoreAdd : ℤ
  explosions : List Explosion
deriving DecidableEq, Repr

/-- Outer loop of the bullet-enemy collision scan (game.rs lines
253-272), threading the mutated bullet pool from enemy to enemy. -/
def enemyBulletScan (ext : Ext) (i : ℕ) (bs : List Bullet) :
    List Enemy → ScanAll
  | [] => ⟨[], bs, [], 0, []⟩
  | e :: es =>
    let o := enemyBulletInner ext i e bs
    let r := enemyBulletScan ext (i + 1) o.bullets es
    ⟨o.enemy :: r.enemies, r.bullets, o.deaths ++ r.deaths,
      o.scoreAdd + r.scoreAdd, o.explosions ++ r.explosions⟩

/-- Dead-enemy removal (game.rs lines 275-277): iterate the collected
indices in reverse and `remove` each. Rust's `Vec::remove` panics out of
bounds; `List.eraseIdx` is a no-op there, which matters only when the
scan pushed a duplicate index. -/
def removeDead (es : List Enemy) (deaths : List ℕ) : List Enemy :=
  deaths.reverse.foldl (fun l i => l.eraseIdx i) es

/-- First enemy within `40 + enemy.size` of the player (game.rs lines
284-290): pool order, `break` on the first match, recording its index,
position and size. -/
def findPlayerHit (ext : Ext) (ppos : V2) : ℕ → List Enemy →
    Option (ℕ × V2 × ℚ)
  | _, [] => none
  | i, e :: es =>
    if ext.sqrtF (ppos - e.pos).len2 < 40 + e.size then some (i, e.pos, e.size)
    else findPlayerHit ext ppos (i + 1) es

/-- Result of the player-enemy collision phase. -/
structure PEOut where
  enemies : List Enemy
  explosions : List Explosion
  health : ℤ
  safe : ℚ
deriving DecidableEq, Repr

/-- Player-enemy collision resolution (game.rs lines 280-303): only when
`safe_time <= 0`; the first matching enemy is removed, one explosion is
pushed, health drops by 1 and `safe_time` becomes 0.3. -/
def playerEnemyPhase (ext : Ext) (ppos : V2) (es : List Enemy)
    (health : ℤ) (safe : ℚ) : PEOut :=
  if safe ≤ 0 then
    match findPlayerHit ext ppos 0 es with
    | some (idx, pos, size) =>
      ⟨es.eraseIdx idx, [(⟨pos, 0.5, size * 2⟩ : Explosion)], health - 1, 0.3⟩
    | none => ⟨es, [], health, safe⟩
  else ⟨es, [], health, safe⟩

/-- Explosion aging (game.rs lines 306-310): `life -= dt*2`,
`size += dt*100`, keep while `life > 0`. -/
def explosionStep (dt : ℚ) (ex : Explosion) : Option Explosion :=
  let ex1 : Explosion := ⟨ex.pos, ex.life - dt * 2, ex.size + dt * 100⟩
  if ex1.life > 0 then some ex1 else none

/-- Ambient particle update (game.rs lines 313-324): integrate, wrap,
re-derive alpha from the (already advanced) time and wrapped x. -/
def particleStep (ext : Ext) (time1 dt : ℚ) (p : Particle) : Particle :=
  let pos1 := wrapPos ext (p.pos + p.velocity.smul dt)
  ⟨pos1, p.velocity, p.size,
    0.2 + ext.sinF (time1 * 2 + pos1.x * 0.01) * 0.1⟩

/-- Obstacle glow (game.rs lines 327-329). -/
def obstacleStep (dt : ℚ) (o : Obstacle) : Obstacle :=
  ⟨o.pos, o.size, o.glow_phase + dt * 2⟩

/-- game.rs `GameState::update`, phase by phase in source order. The
final `if self.health <= 0 {}` block of the source (lines 331-334) is an
empty `// TODO: Game over screen` body; in particular `game_over` is
never written. -/
def GameState.update (ext : Ext) (inp : FrameInput) (dt : ℚ)
    (s : GameState) : GameState :=
  -- self.time += dt;
  let time1 := s.time + dt
  -- intro fade
  let intro1 := introStep dt s.intro_alpha s.game_started
  -- safe period countdown
  let safe1 := if s.safe_time > 0 then s.safe_time - dt else s.safe_time
  -- handle_input / get_input: externally supplied this frame
  let movement := inp.movement
  let aim := inp.aim
  -- player update
  let player1 := Player.update ext.atan2F movement aim dt s.player
  -- shooting mechanic - auto-fire when aiming
  let cooldown1 := s.shoot_cooldown - dt
  let fired := inp.rightActive = true ∧ cooldown1 ≤ 0
  let bullets1 := if fired then s.bullets ++ [shootBullet ext player1]
                  else s.bullets
  let cooldown2 := if fired then (0.15 : ℚ) else cooldown1
  -- add trail segment, then age it, then cap it
  let trail1 := if |movement.x| > 0.1 ∨ |movement.y| > 0.1 then
                  s.trail ++ [(⟨player1.position, 1, 30⟩ : TrailSegment)]
                else s.trail
  let trail2 := trailCap (trail1.filterMap (trailAge dt))
  -- wrap player around screen edges
  let player2 : Player := ⟨wrapPos ext player1.position, player1.velocity,
                           player1.rotation⟩
  -- update bullets
  let bullets2 := bullets1.filterMap (bulletStep ext dt)
  -- spawn enemies
  let spawned : List Enemy × ℚ :=
    if safe1 ≤ 0 then
      let t1 := s.enemy_spawn_timer - dt
      if t1 ≤ 0 then
        (s.enemies ++ [spawnEnemy ext inp.spawnSide inp.spawnCoord],
          inp.spawnTimerReset)
      else (s.enemies, t1)
    else (s.enemies, s.enemy_spawn_timer)
  -- update enemies - they chase the player!
  let enemies1 := spawned.1.map (enemyChase ext player2.position dt)
  -- check bullet vs enemy collisions
  let scan := enemyBulletScan ext 0 bullets2 enemies1
  -- remove dead enemies
  let enemies2 := removeDead scan.enemies scan.deaths
  -- check player vs enemy collisions
  let pe := playerEnemyPhase ext player2.position enemies2 s.health safe1
  -- update explosions (the ones pushed this frame age too)
  let explosions1 :=
    (s.explosions ++ scan.explosions ++ pe.explosions).filterMap
      (explosionStep dt)
  -- update particles / obstacles
  let particles1 := s.particles.map (particleStep ext time1 dt)
  let obstacles1 := s.obstacles.map (obstacleStep dt)
  { player := player2
    particles := particles1
    trail := trail2
    obstacles := obstacles1
    bullets := scan.bullets
    enemies := pe.enemies
    explosions := explosions1
    shoot_cooldown := cooldown2
    enemy_spawn_timer := spawned.2
    health := pe.health
    score := s.score + scan.scoreAdd
    time := time1
    intro_alpha := intro1.1
    game_started := intro1.2
    safe_time := pe.safe
    game_over := s.game_over }

/-- Fate of a single bullet across successive frames of the bullet-update
phase (the `retain_mut` closure applied pointwise frame after frame). -/
def bulletRun (ext : Ext) : List ℚ → Bullet → Option Bullet
  | [], b => some b
  | d :: ds, b =>
    match bulletStep ext d b with
    | none => none
    | some b1 => bulletRun ext ds b1

/-- Iterate `GameState.update` with a fixed per-frame input and dt. -/
def runFrames (ext : Ext) (inp : FrameInput) (dt : ℚ) :
    ℕ → GameState → GameState
  | 0, s => s
  | n + 1, s => runFrames ext inp dt n (GameState.update ext inp dt s)

/-- Concrete environment for closed evaluations: 100×100 screen; the math
functions are only ever applied at argument 0 in those runs, where the
chosen values agree with the f32 library (`sqrt 0 = 0`, `cos 0 = 1`,
`sin 0 = 0`, `atan2` unused). -/
def testExt : Ext :=
  ⟨fun _ => 0, fun _ _ => 0, fun _ => 1, fun _ => 0, 100, 100⟩

/-- Environment whose `sqrtF` separates distance 0 from any positive
squared distance (value 1000 for every nonzero argument), used to witness
first-match selection. -/
def farExt : Ext :=
  ⟨fun q => if q = 0 then 0 else 1000, fun _ _ => 0, fun _ => 1,
    fun _ => 0, 100, 100⟩

/-- A frame with both joysticks released and fixed random draws. -/
def quietInput : FrameInput := ⟨⟨0, 0⟩, ⟨0, 0⟩, false, 0, 0, 1⟩

/-- A quiescent state: player resting at (50,50), all pools empty, safe
period still running so that no enemy spawns and no player collision is
evaluated. -/
def baseState : GameState where
  player := ⟨⟨50, 50⟩, ⟨0, 0⟩, 0⟩
  particles := []
  trail := []
  obstacles := []
  bullets := []
  enemies := []
  explosions := []
  shoot_cooldown := 0
  enemy_spawn_timer := 1
  health := 3
  score := 0
  time := 0
  intro_alpha := 0
  game_started := true
  safe_time := 5
  game_over := false

/-- One full-health-2 enemy exactly at the player's position and three
bullets within hit range of it (all distances are 0, where f32 `sqrt` is
exact). -/
def tripleHitState : GameState :=
  { baseState with
    bullets := [⟨⟨50, 50⟩, ⟨0, 0⟩, 1⟩, ⟨⟨50, 50⟩, ⟨0, 0⟩, 1⟩,
                ⟨⟨50, 50⟩, ⟨0, 0⟩, 1⟩]
    enemies := [⟨⟨50, 50⟩, ⟨0, 0⟩, 0, 2, 25⟩] }

/-- A state whose session health is already exhausted. -/
def drainedState : GameState := { baseState with health := 0 }

/-- A fresh-session intro state (intro_alpha 1.0, game not started). -/
def introState : GameState :=
  { baseState with intro_alpha := 1, game_started := false, safe_time := 3 }

/-- One live bullet that lands exactly on the screen boundary x = 0 after
one frame of dt = 1. -/
def edgeBulletState : GameState :=
  { baseState with bullets := [⟨⟨1, 50⟩, ⟨-1, 0⟩, 1.5⟩] }

end Rocket

/-! ## Joystick model (src/joystick.rs), over ℝ -/

namespace Joy

noncomputable section

/-- joystick.rs `Vec2`, over ℝ so that `length` is exact Euclidean
length. -/
structure JVec where
  x : ℝ
  y : ℝ

def JVec.add (a b : JVec) : JVec := ⟨a.x + b.x, a.y + b.y⟩

def JVec.sub (a b : JVec) : JVec := ⟨a.x - b.x, a.y - b.y⟩

def JVec.smul (v : JVec) (s : ℝ) : JVec := ⟨v.x * s, v.y * s⟩

def JVec.sdiv (v : JVec) (s : ℝ) : JVec := ⟨v.x / s, v.y / s⟩

/-- Squared length, the argument of `Vec2::length`. -/
def JVec.len2 (v : JVec) : ℝ := v.x * v.x + v.y * v.y

/-- joystick.rs `Vec2::length`. -/
def JVec.length (v : JVec) : ℝ := Real.sqrt v.len2

/-- joystick.rs `Vec2::normalize`: zero-length vectors normalize to
zero. -/
def JVec.normalize (v : JVec) : JVec :=
  let len := v.length
  if len > 0 then ⟨v.x / len, v.y / len⟩ else ⟨0, 0⟩

/-- joystick.rs `Joystick`. -/
structure Joystick where
  center : JVec
  current : JVec
  active : Bool
  radius : ℝ

/-- joystick.rs `Joystick::new`. -/
def Joystick.new (radius : ℝ) : Joystick := ⟨⟨0, 0⟩, ⟨0, 0⟩, false, radius⟩

/-- joystick.rs `on_touch_start`. -/
def Joystick.touchStart (j : Joystick) (pos : JVec) : Joystick :=
  ⟨pos, pos, true, j.radius⟩

/-- joystick.rs `on_touch_move`: no-op when inactive, otherwise clamp the
offset from the center to the radius and move the thumb there. -/
def Joystick.touchMove (j : Joystick) (pos : JVec) : Joystick :=
  if j.active = false then j
  else
    let delta := pos.sub j.center
    let delta1 := if delta.length > j.radius then
                    (delta.normalize).smul j.radius
                  else delta
    ⟨j.center, j.center.add delta1, j.active, j.radius⟩

/-- joystick.rs `on_touch_end`. -/
def Joystick.touchEnd (j : Joystick) : Joystick :=
  ⟨j.center, j.center, false, j.radius⟩

/-- joystick.rs `get_input`: zero when inactive, otherwise
`(current - center) / radius`. -/
def Joystick.getInput (j : Joystick) : JVec :=
  if j.active = false then ⟨0, 0⟩
  else (j.current.sub j.center).sdiv j.radius

/-- The three joystick operations. -/
inductive JoyOp where
  | tstart (pos : JVec)
  | tmove (pos : JVec)
  | tend


def applyOp (j : Joystick) : JoyOp → Joystick
  | .tstart pos => j.touchStart pos
  | .tmove pos => j.touchMove pos
  | .tend => j.touchEnd

/-- Run a sequence of operations from a given joystick state. -/
def runOpsFrom (j : Joystick) : List JoyOp → Joystick
  | [] => j
  | op :: ops => runOpsFrom (applyOp j op) ops

/-- Run a sequence of operations from `Joystick::new radius`. -/
def runOps (radius : ℝ) (ops : List JoyOp) : Joystick :=
  runOpsFrom (Joystick.new radius) ops

end

end Joy

/-! ## Theorems -/

namespace Rocket

@[simp] theorem V2.add_x (a b : V2) : (a + b).x = a.x + b.x := rfl

@[simp] theorem V2.add_y (a b : V2) : (a + b).y = a.y + b.y := rfl

@[simp] theorem V2.sub_x (a b : V2) : (a - b).x = a.x - b.x := rfl

@[simp] theorem V2.sub_y (a b : V2) : (a - b).y = a.y - b.y := rfl

@[simp] theorem V2.smul_x (v : V2) (s : ℚ) : (v.smul s).x = v.x * s := rfl

@[simp] theorem V2.smul_y (v : V2) (s : ℚ) : (v.smul s).y = v.y * s := rfl

@[simp] theorem V2.sdiv_x (v : V2) (s : ℚ) : (v.sdiv s).x = v.x / s := rfl

@[simp] theorem V2.sdiv_y (v : V2) (s : ℚ) : (v.sdiv s).y = v.y / s := rfl

/-- C7: `Player::update` performs exactly, in order: thrust
(`velocity += movement * 400 * dt`), then damping (`velocity *= 0.98`,
every frame, also with zero input — last conjunct), then integration
(`position += velocity * dt` with the damped velocity), and finally
`rotation = atan2(aim.y, aim.x)` when `aim` is non-zero while rotation is
unchanged when `aim` is the zero vector. -/
theorem c7_player_update (at2 : ℚ → ℚ → ℚ) (m a : V2) (dt : ℚ) (p : Player) :
    (Player.update at2 m a dt p).velocity =
        (p.velocity + (m.smul 400).smul dt).smul 0.98
    ∧ (Player.update at2 m a dt p).position =
        p.position + ((p.velocity + (m.smul 400).smul dt).smul 0.98).smul dt
    ∧ (Player.update at2 m a dt p).rotation =
        (if a.x ≠ 0 ∨ a.y ≠ 0 then at2 a.y a.x else p.rotation)
    ∧ (Player.update at2 ⟨0, 0⟩ a dt p).velocity = p.velocity.smul 0.98 := by
  refine ⟨rfl, rfl, rfl, ?_⟩
  simp [Player.update, V2.smul, V2.add]

/-- C10: in the enemy-pursuit loop, an enemy sitting exactly at the
player's position has `to_player = (0,0)`, so `distance = sqrt 0 = 0`,
the `distance > 0` branch (the only place that divides by the distance)
is skipped, velocity and rotation keep their previous values, and the
position still integrates by `velocity * dt` (followed by the screen
wrap the source applies to every enemy). -/
theorem c10_pursuit_zero_distance (ext : Ext) (ppos : V2) (dt : ℚ)
    (e : Enemy) (h0 : ext.sqrtF 0 = 0) (hpos : e.pos = ppos) :
    enemyChase ext ppos dt e =
      ⟨wrapEnemyPos ext (e.pos + e.velocity.smul dt), e.velocity,
        e.rotation, e.health, e.size⟩ := by
  subst hpos
  simp [enemyChase, V2.len2, h0]

/-- Witness for C10 at a concrete enemy resting on the player. -/
theorem c10_pursuit_zero_distance_witness :
    testExt.sqrtF 0 = 0 ∧
    (⟨⟨50, 50⟩, ⟨1, 2⟩, 3, 2, 25⟩ : Enemy).pos = (⟨50, 50⟩ : V2) ∧
    enemyChase testExt ⟨50, 50⟩ 1 ⟨⟨50, 50⟩, ⟨1, 2⟩, 3, 2, 25⟩ =
      ⟨wrapEnemyPos testExt
          ((⟨⟨50, 50⟩, ⟨1, 2⟩, 3, 2, 25⟩ : Enemy).pos +
            (⟨⟨50, 50⟩, ⟨1, 2⟩, 3, 2, 25⟩ : Enemy).velocity.smul 1),
        ⟨1, 2⟩, 3, 2, 25⟩ :=
  ⟨rfl, rfl,
    c10_pursuit_zero_distance testExt ⟨50, 50⟩ 1 _ rfl rfl⟩

/-- C5 (amended): per update frame, `intro_alpha` decays by `0.5*dt`
while positive and is clamped at 0, but `game_started` is latched only
when the decremented value goes strictly below 0; a decrement landing
exactly on 0 leaves `game_started` untouched then and forever after.
`game_started` is never reset to false (the formula only ever turns it
on). -/
theorem c5_intro_latch (ext : Ext) (inp : FrameInput) (dt : ℚ)
    (s : GameState) :
    (GameState.update ext inp dt s).intro_alpha =
      (if 0 < s.intro_alpha then
        (if s.intro_alpha - dt * 0.5 < 0 then 0 else s.intro_alpha - dt * 0.5)
      else s.intro_alpha)
    ∧ (GameState.update ext inp dt s).game_started =
      (if 0 < s.intro_alpha ∧ s.intro_alpha - dt * 0.5 < 0 then true
      else s.game_started) := by
  constructor <;>
  · simp only [GameState.update, introStep, gt_iff_lt]
    split
    · split <;> simp_all
    · simp_all

/-- Counterexample to C5 as stated: four frames of dt = 0.5 from a fresh
intro (alpha 1.0) make `intro_alpha` land exactly on 0 (1.0 → 0.75 → 0.5
→ 0.25 → 0), the `< 0` latch never fires, and `game_started` stays false
even though `intro_alpha` has reached 0 — and stays false on every later
frame (two extra frames shown). -/
theorem c5_counterexample :
    (runFrames testExt quietInput 0.5 4 introState).intro_alpha = 0 ∧
    (runFrames testExt quietInput 0.5 4 introState).game_started = false ∧
    (runFrames testExt quietInput 0.5 6 introState).intro_alpha = 0 ∧
    (runFrames testExt quietInput 0.5 6 introState).game_started = false := by
  norm_num [runFrames, GameState.update, introStep, Player.update, trailAge,
    trailCap, wrapPos, bulletStep, spawnEnemy, enemyChase, wrapEnemyPos,
    enemyBulletScan, enemyBulletInner, removeDead, findPlayerHit,
    playerEnemyPhase, explosionStep, particleStep, obstacleStep, shootBullet,
    testExt, quietInput, baseState, introState, V2.len2, vlen]

/-- Helper: a successful bullet step records the decremented life, which
stays positive. -/
theorem bulletStep_some_life (ext : Ext) (d : ℚ) (b b1 : Bullet)
    (h : bulletStep ext d b = some b1) :
    b1.life = b.life - d ∧ 0 < b1.life := by
  simp only [bulletStep] at h
  split at h
  · cases h
    exact ⟨rfl, by simp_all⟩
  · cases h

/-- Helper: a bullet whose remaining life is covered by the coming frame
deltas is gone by the end of them. -/
theorem bulletRun_of_le (ext : Ext) :
    ∀ (ds : List ℚ) (b : Bullet), 0 < b.life → b.life ≤ ds.sum →
      bulletRun ext ds b = none := by
  intro ds
  induction ds with
  | nil =>
    intro b h0 hle
    simp only [List.sum_nil] at hle
    linarith
  | cons d ds ih =>
    intro b h0 hle
    simp only [List.sum_cons] at hle
    rw [bulletRun]
    cases hst : bulletStep ext d b with
    | none => rfl
    | some b1 =>
      obtain ⟨hlife, hpos⟩ := bulletStep_some_life ext d b b1 hst
      exact ih b1 hpos (by rw [hlife]; linarith)

/-- C8 (amended): per frame the bullet phase advances each bullet by
`velocity*dt`, decrements its life by `dt`, and keeps it exactly when the
new life is positive and the new position is strictly inside the open
rectangle `(0,width) × (0,height)` (a bullet exactly on the boundary is
culled); consequently a bullet spawned with life 2.0 is gone from the
per-bullet fate once the cumulative frame time reaches 2.0 seconds. -/
theorem c8_bullet_lifecycle :
    (∀ (ext : Ext) (dt : ℚ) (bs : List Bullet) (b1 : Bullet),
      b1 ∈ bs.filterMap (bulletStep ext dt) ↔
        ∃ b ∈ bs, b1.pos = b.pos + b.velocity.smul dt
          ∧ b1.velocity = b.velocity ∧ b1.life = b.life - dt
          ∧ 0 < b1.life ∧ 0 < b1.pos.x ∧ b1.pos.x < ext.width
          ∧ 0 < b1.pos.y ∧ b1.pos.y < ext.height)
    ∧ (∀ (ext : Ext) (ds : List ℚ) (b : Bullet),
        b.life ≤ 2 → 0 < b.life → 2 ≤ ds.sum →
          bulletRun ext ds b = none) := by
  constructor
  · intro ext dt bs b1
    rw [List.mem_filterMap]
    constructor
    · rintro ⟨b, hb, hstep⟩
      simp only [bulletStep] at hstep
      split at hstep
      · rename_i hcond
        cases hstep
        exact ⟨b, hb, rfl, rfl, rfl, hcond.1, hcond.2.1, hcond.2.2.1,
          hcond.2.2.2.1, hcond.2.2.2.2⟩
      · cases hstep
    · rintro ⟨b, hb, hp, hv, hl, h1, h2, h3, h4, h5⟩
      refine ⟨b, hb, ?_⟩
      simp only [bulletStep]
      rw [if_pos]
      · obtain ⟨p1, v1, l1⟩ := b1
        simp only at hp hv hl
        rw [← hp, ← hv, ← hl]
      · exact ⟨by rw [← hl]; exact h1, by rw [← hp]; exact h2,
          by rw [← hp]; exact h3, by rw [← hp]; exact h4,
          by rw [← hp]; exact h5⟩
  · intro ext ds b h2 h0 hsum
    exact bulletRun_of_le ext ds b h0 (by linarith)

/-- Witness for C8: a fresh bullet (life 2.0) is gone after two frames of
one second each. -/
theorem c8_bullet_lifecycle_witness :
    (⟨⟨5, 5⟩, ⟨0, 0⟩, 2⟩ : Bullet).life ≤ 2
    ∧ 0 < (⟨⟨5, 5⟩, ⟨0, 0⟩, 2⟩ : Bullet).life
    ∧ 2 ≤ ([1, 1] : List ℚ).sum
    ∧ bulletRun testExt [1, 1] ⟨⟨5, 5⟩, ⟨0, 0⟩, 2⟩ = none :=
  ⟨by norm_num, by norm_num, by norm_num [List.sum_cons],
    c8_bullet_lifecycle.2 testExt [1, 1] _ (by norm_num) (by norm_num)
      (by norm_num [List.sum_cons])⟩

/-- Counterexample to C8 as stated: a live bullet that lands exactly on
the boundary x = 0 (inside the CLOSED rectangle `[0,width]×[0,height]`
named by the claim, with life 0.5 > 0 remaining) is nevertheless removed
by the update, because the source culls with strict inequalities
(`pos.x > 0.0`). -/
theorem c8_counterexample :
    (GameState.update testExt quietInput 1 edgeBulletState).bullets = []
    ∧ 0 < (1.5 : ℚ) - 1
    ∧ ((⟨1, 50⟩ : V2) + (⟨-1, 0⟩ : V2).smul 1).x = 0
    ∧ (0 : ℚ) ≤ ((⟨1, 50⟩ : V2) + (⟨-1, 0⟩ : V2).smul 1).x
    ∧ ((⟨1, 50⟩ : V2) + (⟨-1, 0⟩ : V2).smul 1).x ≤ testExt.width
    ∧ (0 : ℚ) ≤ ((⟨1, 50⟩ : V2) + (⟨-1, 0⟩ : V2).smul 1).y
    ∧ ((⟨1, 50⟩ : V2) + (⟨-1, 0⟩ : V2).smul 1).y ≤ testExt.height := by
  norm_num [GameState.update, introStep, Player.update, trailAge, trailCap,
    wrapPos, bulletStep, spawnEnemy, enemyChase, wrapEnemyPos,
    enemyBulletScan, enemyBulletInner, removeDead, findPlayerHit,
    playerEnemyPhase, explosionStep, particleStep, obstacleStep, shootBullet,
    testExt, quietInput, baseState, edgeBulletState, V2.len2, vlen]

/-- C1 (code bug): with one health-2 enemy and three bullets all within
hit range in the same frame, the death effect fires twice — the second
and the third hit both see `health <= 0`, so the enemy index is scheduled
for removal twice (`deaths = [0, 0]`), the score rises by 200 instead of
100, and two explosions are spawned. (In Rust the duplicated
`Vec::remove(0)` on the by-then empty pool panics; `List.eraseIdx` makes
the model total.) -/
theorem c1_triple_hit_double_death :
    (enemyBulletScan testExt 0
        [⟨⟨50, 50⟩, ⟨0, 0⟩, 0.9⟩, ⟨⟨50, 50⟩, ⟨0, 0⟩, 0.9⟩,
          ⟨⟨50, 50⟩, ⟨0, 0⟩, 0.9⟩]
        [⟨⟨50, 50⟩, ⟨0, 0⟩, 0, 2, 25⟩]).deaths = [0, 0]
    ∧ (GameState.update testExt quietInput 0.1 tripleHitState).score = 200
    ∧ (GameState.update testExt quietInput 0.1 tripleHitState).explosions.length = 2
    ∧ (GameState.update testExt quietInput 0.1 tripleHitState).enemies = [] := by
  norm_num [GameState.update, introStep, Player.update, trailAge, trailCap,
    wrapPos, bulletStep, spawnEnemy, enemyChase, wrapEnemyPos,
    enemyBulletScan, enemyBulletInner, removeDead, findPlayerHit,
    playerEnemyPhase, explosionStep, particleStep, obstacleStep, shootBullet,
    testExt, quietInput, baseState, tripleHitState, V2.len2, vlen,
    List.eraseIdx, List.filterMap_cons]

/-- C2 (code bug): `game_over` is never written by `update` — the
`if self.health <= 0` block at game.rs lines 331-334 has an empty TODO
body — so after an update from an exhausted-health state, `health ≤ 0`
holds while `game_over` is still false. -/
theorem c2_game_over_never_set :
    (∀ (ext : Ext) (inp : FrameInput) (dt : ℚ) (s : GameState),
      (GameState.update ext inp dt s).game_over = s.game_over)
    ∧ (GameState.update testExt quietInput 0.1 drainedState).health ≤ 0
    ∧ (GameState.update testExt quietInput 0.1 drainedState).game_over
        = false := by
  refine ⟨fun ext inp dt s => rfl, ?_, rfl⟩
  norm_num [GameState.update, introStep, Player.update, trailAge, trailCap,
    wrapPos, bulletStep, spawnEnemy, enemyChase, wrapEnemyPos,
    enemyBulletScan, enemyBulletInner, removeDead, findPlayerHit,
    playerEnemyPhase, explosionStep, particleStep, obstacleStep, shootBullet,
    testExt, quietInput, baseState, drainedState, V2.len2, vlen]

/-- Helper: the trail cap keeps exactly the last 20 entries, phrased as a
`drop`. -/
theorem trailCap_eq_drop (l : List TrailSegment) :
    trailCap l = l.drop (l.length - 20) := by
  rw [trailCap]
  split
  · rfl
  · rw [Nat.sub_eq_zero_of_le (by omega), List.drop_zero]

/-- Helper: the trail cap's length is the minimum of 20 and the input
length. -/
theorem trailCap_length (l : List TrailSegment) :
    (trailCap l).length = min l.length 20 := by
  rw [trailCap_eq_drop, List.length_drop]
  omega

/-- C6: after every update the trail pool is the suffix of the 20 most
recently appended surviving segments, in insertion order: a fresh segment
is appended at the (pre-wrap) player position exactly when either
movement axis exceeds the 0.1 deadzone, all segments age by
`life -= 2*dt` / `size -= 40*dt` with the non-positive-life ones dropped,
and of the survivors only the last 20 (the oldest dropped first) are
kept, so the pool never exceeds 20 segments. -/
theorem c6_trail_pool (ext : Ext) (inp : FrameInput) (dt : ℚ)
    (s : GameState) :
    let p1 := Player.update ext.atan2F inp.movement inp.aim dt s.player
    let pushed := if |inp.movement.x| > 0.1 ∨ |inp.movement.y| > 0.1 then
        s.trail ++ [(⟨p1.position, 1, 30⟩ : TrailSegment)] else s.trail
    let survivors := pushed.filterMap (trailAge dt)
    (GameState.update ext inp dt s).trail =
        survivors.drop (survivors.length - 20)
    ∧ (GameState.update ext inp dt s).trail.length = min survivors.length 20
    ∧ (GameState.update ext inp dt s).trail.length ≤ 20
    ∧ ((GameState.update ext inp dt s).trail).IsSuffix survivors := by
  intro p1 pushed survivors
  have h : (GameState.update ext inp dt s).trail = trailCap survivors := rfl
  rw [h, trailCap_eq_drop]
  exact ⟨rfl, by rw [List.length_drop]; omega, by rw [List.length_drop]; omega,
    List.drop_suffix _ _⟩

/-- Helper: `findPlayerHit` returns `none` when no enemy is in range. -/
theorem findPlayerHit_none (ext : Ext) (ppos : V2) :
    ∀ (es : List Enemy) (k : ℕ),
      (∀ e ∈ es, ¬ ext.sqrtF (ppos - e.pos).len2 < 40 + e.size) →
      findPlayerHit ext ppos k es = none := by
  intro es
  induction es with
  | nil => intro k _; rfl
  | cons e es ih =>
    intro k hno
    rw [findPlayerHit, if_neg (hno e (List.mem_cons_self e es))]
    exact ih (k + 1) fun e1 he1 => hno e1 (List.mem_cons_of_mem e he1)

/-- Helper: `findPlayerHit` returns the first in-range enemy, with its
index offset by the starting counter. -/
theorem findPlayerHit_first (ext : Ext) (ppos : V2) :
    ∀ (es : List Enemy) (k i : ℕ) (hi : i < es.length),
      ext.sqrtF (ppos - es[i].pos).len2 < 40 + es[i].size →
      (∀ (j : ℕ) (hj : j < es.length), j < i →
        ¬ ext.sqrtF (ppos - es[j].pos).len2 < 40 + es[j].size) →
      findPlayerHit ext ppos k es = some (k + i, es[i].pos, es[i].size) := by
  intro es
  induction es with
  | nil => intro k i hi; exact absurd hi (Nat.not_lt_zero i)
  | cons e es ih =>
    intro k i hi hhit hmin
    cases i with
    | zero =>
      simp only [List.getElem_cons_zero] at hhit ⊢
      rw [findPlayerHit, if_pos hhit, Nat.add_zero]
    | succ i =>
      have hhead : ¬ ext.sqrtF (ppos - e.pos).len2 < 40 + e.size := by
        have := hmin 0 (Nat.succ_pos _) (Nat.succ_pos i)
        simpa using this
      rw [findPlayerHit, if_neg hhead]
      have hi1 : i < es.length := Nat.lt_of_succ_lt_succ hi
      have hmin1 : ∀ (j : ℕ) (hj : j < es.length), j < i →
          ¬ ext.sqrtF (ppos - es[j].pos).len2 < 40 + es[j].size := by
        intro j hj hji
        have := hmin (j + 1) (Nat.succ_lt_succ hj) (Nat.succ_lt_succ hji)
        simpa using this
      have hhit1 : ext.sqrtF (ppos - es[i].pos).len2 < 40 + es[i].size := by
        simpa using hhit
      rw [ih (k + 1) i hi1 hhit1 hmin1]
      simp only [List.getElem_cons_succ]
      have : k + 1 + i = k + (i + 1) := by omega
      rw [this]

/-- C3: the player-enemy collision phase is a no-op while
`safe_time > 0`; when `safe_time ≤ 0` it scans the pool in order and
resolves at most one collision: with no enemy in range (distance
`< 40 + size` from the player) nothing changes, and otherwise exactly the
first in-range enemy is removed (the pool shrinks by exactly one), one
explosion is spawned at its position, health drops by exactly 1 and
`safe_time` becomes 0.3 — even if several enemies overlap the player. -/
theorem c3_player_collision (ext : Ext) (ppos : V2) (es : List Enemy)
    (health : ℤ) (safe : ℚ) :
    (0 < safe →
      playerEnemyPhase ext ppos es health safe = ⟨es, [], health, safe⟩)
    ∧ (safe ≤ 0 →
        (∀ e ∈ es, ¬ ext.sqrtF (ppos - e.pos).len2 < 40 + e.size) →
        playerEnemyPhase ext ppos es health safe = ⟨es, [], health, safe⟩)
    ∧ (safe ≤ 0 → ∀ (i : ℕ) (hi : i < es.length),
        ext.sqrtF (ppos - es[i].pos).len2 < 40 + es[i].size →
        (∀ (j : ℕ) (hj : j < es.length), j < i →
          ¬ ext.sqrtF (ppos - es[j].pos).len2 < 40 + es[j].size) →
        playerEnemyPhase ext ppos es health safe =
          ⟨es.eraseIdx i,
            [(⟨es[i].pos, 0.5, es[i].size * 2⟩ : Explosion)],
            health - 1, 0.3⟩
        ∧ (es.eraseIdx i).length = es.length - 1) := by
  refine ⟨?_, ?_, ?_⟩
  · intro hsafe
    rw [playerEnemyPhase, if_neg (not_le.mpr hsafe)]
  · intro hsafe hno
    rw [playerEnemyPhase, if_pos hsafe, findPlayerHit_none ext ppos es 0 hno]
  · intro hsafe i hi hhit hmin
    constructor
    · rw [playerEnemyPhase, if_pos hsafe,
        findPlayerHit_first ext ppos es 0 i hi hhit hmin]
      simp
    · rw [List.length_eraseIdx_of_lt hi]

/-- Witness for C3: two enemies, the far one (distance 80 > 65) scanned
first, the overlapping one (distance 0 < 65) second; exactly the second
is removed with one explosion, health 3 → 2, safe_time 0.3. -/
theorem c3_player_collision_witness :
    ((0 : ℚ) ≤ 0)
    ∧ (1 < ([⟨⟨80, 0⟩, ⟨0, 0⟩, 0, 2, 25⟩,
        ⟨⟨0, 0⟩, ⟨0, 0⟩, 0, 2, 25⟩] : List Enemy).length)
    ∧ farExt.sqrtF (((⟨0, 0⟩ : V2) - (⟨0, 0⟩ : V2)).len2) < 40 + 25
    ∧ ¬ farExt.sqrtF (((⟨0, 0⟩ : V2) - (⟨80, 0⟩ : V2)).len2) < 40 + 25
    ∧ playerEnemyPhase farExt ⟨0, 0⟩
        [⟨⟨80, 0⟩, ⟨0, 0⟩, 0, 2, 25⟩, ⟨⟨0, 0⟩, ⟨0, 0⟩, 0, 2, 25⟩] 3 0 =
        ⟨[⟨⟨80, 0⟩, ⟨0, 0⟩, 0, 2, 25⟩], [⟨⟨0, 0⟩, 0.5, 50⟩], 2, 0.3⟩ := by
  refine ⟨le_refl 0, by norm_num, by norm_num [farExt, V2.len2],
    by norm_num [farExt, V2.len2], ?_⟩
  have h := ((c3_player_collision farExt ⟨0, 0⟩
      [⟨⟨80, 0⟩, ⟨0, 0⟩, 0, 2, 25⟩, ⟨⟨0, 0⟩, ⟨0, 0⟩, 0, 2, 25⟩] 3 0).2.2
    (le_refl 0) 1 (by norm_num)
    (by norm_num [farExt, V2.len2])
    (?_)).1
  · rw [h]
    norm_num [List.eraseIdx]
  · intro j hj hj1
    have : j = 0 := by omega
    subst this
    norm_num [farExt, V2.len2]

/-- Helper: the player-enemy phase treats the incoming health additively;
every other output field is independent of it. -/
theorem pe_health_shift (ext : Ext) (ppos : V2) (es : List Enemy)
    (safe : ℚ) (h1 h2 : ℤ) :
    playerEnemyPhase ext ppos es h1 safe =
      ⟨(playerEnemyPhase ext ppos es h2 safe).enemies,
        (playerEnemyPhase ext ppos es h2 safe).explosions,
        (playerEnemyPhase ext ppos es h2 safe).health - h2 + h1,
        (playerEnemyPhase ext ppos es h2 safe).safe⟩ := by
  rw [playerEnemyPhase, playerEnemyPhase]
  split
  · cases hfind : findPlayerHit ext ppos 0 es with
    | none => simp
    | some v =>
      obtain ⟨idx, pos, size⟩ := v
      dsimp only
      rw [PEOut.mk.injEq]
      exact ⟨rfl, rfl, by omega, rfl⟩
  · simp

/-- Helper: the phase decrements health by at most one and never
increases it. -/
theorem pe_health_bounds (ext : Ext) (ppos : V2) (es : List Enemy)
    (health : ℤ) (safe : ℚ) :
    (playerEnemyPhase ext ppos es health safe).health ≤ health
    ∧ health - 1 ≤ (playerEnemyPhase ext ppos es health safe).health := by
  rw [playerEnemyPhase]
  split
  · cases hfind : findPlayerHit ext ppos 0 es with
    | none => dsimp only; exact ⟨le_refl _, by omega⟩
    | some v =>
      obtain ⟨idx, pos, size⟩ := v
      dsimp only
      exact ⟨by omega, by omega⟩
  · dsimp only
    exact ⟨le_refl _, by omega⟩

/-- C9: across any single update the session health never increases and
drops by at most 1 (exactly the one resolved player-enemy collision);
and health feeds back into nothing — states differing only in `health`
produce updates differing only in `health` (shifted by the same amount),
so when health is 0 or negative the simulation carries on unchanged:
enemies still spawn and chase, collisions still resolve, health can keep
decreasing and score can still increase. -/
theorem c9_health_never_increases (ext : Ext) (inp : FrameInput) (dt : ℚ)
    (s : GameState) (h : ℤ) :
    ((GameState.update ext inp dt s).health ≤ s.health
      ∧ s.health - 1 ≤ (GameState.update ext inp dt s).health)
    ∧ GameState.update ext inp dt { s with health := h } =
      { GameState.update ext inp dt s with
          health := (GameState.update ext inp dt s).health - s.health + h } := by
  constructor
  · exact ⟨(pe_health_bounds ext _ _ s.health _).1,
      (pe_health_bounds ext _ _ s.health _).2⟩
  · show GameState.mk _ _ _ _ _ _ _ _ _ _ _ _ _ _ _ _ =
      GameState.mk _ _ _ _ _ _ _ _ _ _ _ _ _ _ _ _
    rw [GameState.mk.injEq]
    refine ⟨rfl, rfl, rfl, rfl, rfl, ?_, ?_, rfl, rfl, ?_, rfl, rfl, rfl,
      rfl, ?_, rfl⟩
    · rw [pe_health_shift ext _ _ _ h s.health]
      rfl
    · rw [pe_health_shift ext _ _ _ h s.health]
      rfl
    · rw [pe_health_shift ext _ _ _ h s.health]
      rfl
    · rw [pe_health_shift ext _ _ _ h s.health]
      rfl

end Rocket

namespace Joy

@[simp] theorem JVec.jvec_add_x (a b : JVec) : (a.add b).x = a.x + b.x := rfl

@[simp] theorem JVec.jvec_add_y (a b : JVec) : (a.add b).y = a.y + b.y := rfl

@[simp] theorem JVec.jvec_sub_x (a b : JVec) : (a.sub b).x = a.x - b.x := rfl

@[simp] theorem JVec.jvec_sub_y (a b : JVec) : (a.sub b).y = a.y - b.y := rfl

@[simp] theorem JVec.jvec_smul_x (v : JVec) (s : ℝ) : (v.smul s).x = v.x * s := rfl

@[simp] theorem JVec.jvec_smul_y (v : JVec) (s : ℝ) : (v.smul s).y = v.y * s := rfl

@[simp] theorem JVec.jvec_sdiv_x (v : JVec) (s : ℝ) : (v.sdiv s).x = v.x / s := rfl

@[simp] theorem JVec.jvec_sdiv_y (v : JVec) (s : ℝ) : (v.sdiv s).y = v.y / s := rfl

/-- Helper: no joystick operation changes the radius. -/
theorem applyOp_radius (j : Joystick) (op : JoyOp) :
    (applyOp j op).radius = j.radius := by
  cases op with
  | tstart pos => rfl
  | tmove pos =>
    rw [applyOp, Joystick.touchMove]
    split <;> rfl
  | tend => rfl

/-- Helper: the radius is the one fixed at construction. -/
theorem runOpsFrom_radius (ops : List JoyOp) : ∀ (j : Joystick),
    (runOpsFrom j ops).radius = j.radius := by
  induction ops with
  | nil => intro j; rfl
  | cons op ops ih => intro j; rw [runOpsFrom, ih, applyOp_radius]

/-- Helper: the clamped offset `normalize(delta) * radius` has squared
length exactly `radius²` (the clamp branch only runs when
`|delta| > radius ≥ 0`). -/
theorem clamp_len2 (delta : JVec) (r : ℝ) (hr : 0 ≤ r)
    (hgt : delta.length > r) :
    ((delta.normalize).smul r).len2 = r * r := by
  have hl0 : 0 < delta.length := lt_of_le_of_lt hr hgt
  have hnn : 0 ≤ delta.len2 := by
    rw [JVec.len2]
    exact add_nonneg (mul_self_nonneg _) (mul_self_nonneg _)
  have hsq : delta.length * delta.length = delta.len2 := by
    rw [JVec.length]; exact Real.mul_self_sqrt hnn
  have hne : delta.length ≠ 0 := ne_of_gt hl0
  rw [JVec.normalize, if_pos hl0]
  show (delta.x / delta.length * r) * (delta.x / delta.length * r)
      + (delta.y / delta.length * r) * (delta.y / delta.length * r) = r * r
  have key : (delta.x / delta.length * r) * (delta.x / delta.length * r)
      + (delta.y / delta.length * r) * (delta.y / delta.length * r)
      = (delta.x * delta.x + delta.y * delta.y)
        / (delta.length * delta.length) * (r * r) := by
    ring
  have hsq2 : delta.length * delta.length
      = delta.x * delta.x + delta.y * delta.y := by
    rw [hsq, JVec.len2]
  rw [key, ← hsq2, div_self (mul_ne_zero hne hne), one_mul]

/-- Helper: one operation preserves the joystick invariant — inactive
implies the thumb sits at the center, and the thumb's offset from the
center never exceeds the radius (squared form). -/
theorem joyInv_applyOp (j : Joystick) (op : JoyOp) (hr : 0 ≤ j.radius)
    (h1 : j.active = false → j.current = j.center)
    (h2 : (j.current.sub j.center).len2 ≤ j.radius * j.radius) :
    ((applyOp j op).active = false →
      (applyOp j op).current = (applyOp j op).center)
    ∧ ((applyOp j op).current.sub (applyOp j op).center).len2 ≤
        (applyOp j op).radius * (applyOp j op).radius := by
  have hzero : ∀ (c : JVec), (c.sub c).len2 = 0 := by
    intro c; rw [JVec.sub, JVec.len2]; dsimp; ring
  cases op with
  | tstart pos =>
    dsimp only [applyOp, Joystick.touchStart]
    refine ⟨fun _ => rfl, ?_⟩
    rw [hzero]
    exact mul_self_nonneg j.radius
  | tend =>
    dsimp only [applyOp, Joystick.touchEnd]
    refine ⟨fun _ => rfl, ?_⟩
    rw [hzero]
    exact mul_self_nonneg j.radius
  | tmove pos =>
    dsimp only [applyOp]
    rw [Joystick.touchMove]
    split
    · exact ⟨h1, h2⟩
    · rename_i hact
      dsimp only
      have hcc : ∀ (c d : JVec), ((c.add d).sub c) = d := by
        intro c d
        cases d
        rw [JVec.add, JVec.sub, JVec.mk.injEq]
        dsimp
        constructor <;> ring
      refine ⟨fun h => absurd h hact, ?_⟩
      rw [hcc]
      split
      · rename_i hgt
        rw [clamp_len2 _ _ hr hgt]
      · rename_i hle
        have hle1 : (pos.sub j.center).length ≤ j.radius := not_lt.mp hle
        have hnn2 : 0 ≤ (pos.sub j.center).len2 := by
          rw [JVec.len2]
          exact add_nonneg (mul_self_nonneg _) (mul_self_nonneg _)
        have hmul : (pos.sub j.center).length * (pos.sub j.center).length
            ≤ j.radius * j.radius :=
          mul_self_le_mul_self (Real.sqrt_nonneg _) hle1
        rw [JVec.length, Real.mul_self_sqrt hnn2] at hmul
        exact hmul

/-- Helper: the invariant holds in every state reachable from any state
satisfying it; the radius is carried along unchanged. -/
theorem joyInv_runOpsFrom (ops : List JoyOp) : ∀ (j : Joystick),
    0 ≤ j.radius →
    (j.active = false → j.current = j.center) →
    (j.current.sub j.center).len2 ≤ j.radius * j.radius →
    ((runOpsFrom j ops).active = false →
      (runOpsFrom j ops).current = (runOpsFrom j ops).center)
    ∧ ((runOpsFrom j ops).current.sub (runOpsFrom j ops).center).len2 ≤
        (runOpsFrom j ops).radius * (runOpsFrom j ops).radius := by
  induction ops with
  | nil => intro j _ h1 h2; exact ⟨h1, h2⟩
  | cons op ops ih =>
    intro j hr h1 h2
    rw [runOpsFrom]
    obtain ⟨g1, g2⟩ := joyInv_applyOp j op hr h1 h2
    exact ih (applyOp j op) (by rw [applyOp_radius]; exact hr) g1 g2

/-- C4: in every joystick state reachable from `Joystick::new radius`
(radius > 0) by any start/move/end sequence, `get_input()` is the exact
zero vector when inactive (and then `current = center`), and otherwise
`(current - center) / radius`; in all states its components lie in
[-1, 1] and its Euclidean length lies in [0, 1], because moves clamp
`|current - center|` to at most `radius`. -/
theorem c4_joystick_getInput (r : ℝ) (hr : 0 < r) (ops : List JoyOp) :
    let j := runOps r ops
    (j.active = false → j.getInput = ⟨0, 0⟩ ∧ j.current = j.center)
    ∧ (j.active = true → j.getInput = (j.current.sub j.center).sdiv r)
    ∧ (-1 ≤ j.getInput.x ∧ j.getInput.x ≤ 1
        ∧ -1 ≤ j.getInput.y ∧ j.getInput.y ≤ 1)
    ∧ 0 ≤ j.getInput.length ∧ j.getInput.length ≤ 1 := by
  intro j
  have hrad : j.radius = r := runOpsFrom_radius ops (Joystick.new r)
  have hinv := joyInv_runOpsFrom ops (Joystick.new r) (le_of_lt hr)
    (fun _ => rfl)
    (by
      show ((JVec.mk 0 0).sub ⟨0, 0⟩).len2 ≤ r * r
      have : ((JVec.mk 0 0).sub ⟨0, 0⟩).len2 = 0 := by
        rw [JVec.sub, JVec.len2]; dsimp; ring
      rw [this]
      exact mul_self_nonneg r)
  obtain ⟨hinv1, hinv2⟩ := hinv
  rw [show (runOpsFrom (Joystick.new r) ops) = j from rfl] at hinv1 hinv2
  rw [hrad] at hinv2
  by_cases hact : j.active = false
  · have hcc := hinv1 hact
    have hin : j.getInput = ⟨0, 0⟩ := by
      rw [Joystick.getInput, if_pos hact]
    have hlen : j.getInput.length = 0 := by
      rw [hin, JVec.length, JVec.len2]
      dsimp
      norm_num
    refine ⟨fun _ => ⟨hin, hcc⟩, fun htrue => absurd htrue (by simp [hact]),
      ?_, ?_, ?_⟩
    · rw [hin]; dsimp; norm_num
    · rw [hlen]
    · rw [hlen]; norm_num
  · have hact1 : j.active = true := by
      cases hb : j.active
      · exact absurd hb hact
      · rfl
    have hin : j.getInput = (j.current.sub j.center).sdiv r := by
      rw [Joystick.getInput, if_neg hact, hrad]
    have hd2 : (j.current.x - j.center.x) * (j.current.x - j.center.x)
        + (j.current.y - j.center.y) * (j.current.y - j.center.y)
        ≤ r * r := by
      have h := hinv2
      rw [JVec.len2] at h
      simpa using h
    have hdx_le : j.current.x - j.center.x ≤ r := by
      nlinarith [sq_nonneg (j.current.x - j.center.x - r),
        mul_self_nonneg (j.current.y - j.center.y)]
    have hdx_ge : -r ≤ j.current.x - j.center.x := by
      nlinarith [sq_nonneg (j.current.x - j.center.x + r),
        mul_self_nonneg (j.current.y - j.center.y)]
    have hdy_le : j.current.y - j.center.y ≤ r := by
      nlinarith [sq_nonneg (j.current.y - j.center.y - r),
        mul_self_nonneg (j.current.x - j.center.x)]
    have hdy_ge : -r ≤ j.current.y - j.center.y := by
      nlinarith [sq_nonneg (j.current.y - j.center.y + r),
        mul_self_nonneg (j.current.x - j.center.x)]
    refine ⟨fun hfalse => absurd hfalse (by simp [hact1]), fun _ => hin,
      ⟨?_, ?_, ?_, ?_⟩, ?_, ?_⟩
    · rw [hin]
      dsimp
      rw [le_div_iff₀ hr]
      linarith
    · rw [hin]
      dsimp
      exact (div_le_one hr).mpr hdx_le
    · rw [hin]
      dsimp
      rw [le_div_iff₀ hr]
      linarith
    · rw [hin]
      dsimp
      exact (div_le_one hr).mpr hdy_le
    · exact Real.sqrt_nonneg _
    · rw [hin, JVec.length, JVec.len2]
      dsimp
      have harg : (j.current.x - j.center.x) / r * ((j.current.x - j.center.x) / r)
          + (j.current.y - j.center.y) / r * ((j.current.y - j.center.y) / r)
          = ((j.current.x - j.center.x) * (j.current.x - j.center.x)
            + (j.current.y - j.center.y) * (j.current.y - j.center.y))
            / (r * r) := by
        ring
      rw [harg]
      exact Real.sqrt_le_one.mpr ((div_le_one (mul_pos hr hr)).mpr hd2)

/-- Witness for C4 at radius 80 with a concrete operation sequence. -/
theorem c4_joystick_getInput_witness :
    (0 : ℝ) < 80 ∧
    (let j := runOps 80 [JoyOp.tstart ⟨5, 5⟩, JoyOp.tend]
     (j.active = false → j.getInput = ⟨0, 0⟩ ∧ j.current = j.center)
     ∧ (j.active = true → j.getInput = (j.current.sub j.center).sdiv 80)
     ∧ (-1 ≤ j.getInput.x ∧ j.getInput.x ≤ 1
         ∧ -1 ≤ j.getInput.y ∧ j.getInput.y ≤ 1)
     ∧ 0 ≤ j.getInput.length ∧ j.getInput.length ≤ 1) :=
  ⟨by norm_num,
    c4_joystick_getInput 80 (by norm_num) [JoyOp.tstart ⟨5, 5⟩, JoyOp.tend]⟩

end Joy
